/-
Verification of the `FormProcessMapper` data-access layer
(src/forms-flow-api/src/formsflow_api/models/form_process_mapper.py).

The table is embedded shallowly: a row of `form_process_mapper` is a Lean
structure, a query over the table is a function `List Row → List Row`, and
the ambient per-request tenant context (`UserContext.tenant_key`, injected
by the `user_context` decorator) is made an explicit `Option String`
parameter.  SQL `NULL`-able columns are `Option` fields; the SQLAlchemy
comparison `col == value` on a nullable column is Lean equality on the
`Option` (SQLAlchemy renders `== None` as `IS NULL`, which matches
`Option` equality with `none`), and `col.in_(xs)` on a nullable column is
false at `none`, as SQL `NULL IN (...)` never matches.
-/
import Mathlib

namespace FormsFlow

/-- Status string of `FormProcessMapperStatus.ACTIVE.value`
(enumerated status constant from `formsflow_api_utils`, an external
collaborator; only its distinctness from `INACTIVE` matters here). -/
def ACTIVE_STATUS : String := "active"

/-- Status string of `FormProcessMapperStatus.INACTIVE.value`. -/
def INACTIVE_STATUS : String := "inactive"

/-- The `DEFAULT_PROCESS_KEY` constant from `formsflow_api_utils` (an
external collaborator), the column default of `process_key`: SQLAlchemy
omits a `None`-valued attribute of a String column from the INSERT, so
the default fires and the stored column is never NULL. -/
def DEFAULT_PROCESS_KEY : String := "onestepapproval"

/-- The `DEFAULT_PROCESS_NAME` constant from `formsflow_api_utils`, the
column default of `process_name`. -/
def DEFAULT_PROCESS_NAME : String := "One Step Approval"

/-- One row of the `form_process_mapper` table.  Columns follow the
`db.Column` declarations of the `FormProcessMapper` model; nullable
columns are `Option` fields.  `created` / `modified` and
`created_by` / `modified_by` are the audit columns contributed by the
`AuditDateTimeMixin` / `AuditUserMixin` collaborators (timestamps are
abstracted to `Nat`). -/
structure Row where
  id : Nat
  form_id : String
  form_name : String
  form_type : String
  parent_form_id : String
  process_key : Option String
  process_name : Option String
  status : Option String
  comments : Option String
  tenant : Option String
  process_tenant : Option String
  is_anonymous : Option Bool
  deleted : Option Bool
  task_variable : Option String
  version : Nat
  description : Option String
  created : Nat
  modified : Option Nat
  created_by : String
  modified_by : Option String
deriving Repr, DecidableEq

/-- `access_filter`: restricts `query` to rows with
`status == ACTIVE`, and, when the ambient `tenant_key` is not `None`,
further to rows with `tenant == tenant_key`. -/
def access_filter (tenant_key : Option String) (query : List Row) : List Row :=
  let active := query.filter (fun r => r.status == some ACTIVE_STATUS)
  match tenant_key with
  | some tk => active.filter (fun r => r.tenant == some tk)
  | none => active

/-- `tenant_authorization`: the same tenant restriction as
`access_filter` but with no status predicate. -/
def tenant_authorization (tenant_key : Option String) (query : List Row) : List Row :=
  match tenant_key with
  | some tk => query.filter (fun r => r.tenant == some tk)
  | none => query

/-- A value supplied for one dynamic filter, with Python truthiness:
`None`, `0`, the empty string and the empty list are falsy. -/
inductive FilterValue where
  | none
  | str (s : String)
  | nat (n : Nat)
  | list (l : List String)
deriving Repr, DecidableEq

/-- Python truthiness of a `FilterValue` (`if value:`). -/
def FilterValue.truthy : FilterValue → Bool
  | .none => false
  | .str s => s ≠ ""
  | .nat n => n ≠ 0
  | .list l => l ≠ []

/-- `filter_conditions`: for each `(key, value)` pair with a truthy
value, resolve the key through the static `FILTER_MAPS` configuration and
`create_filter_condition` (both external collaborators from
`formsflow_api_utils`, abstracted here as the resolver `fmaps` turning a
key and its value into a row predicate) and AND the resulting conditions
onto the base query; with no conditions the base query is returned
unfiltered. -/
def filter_conditions (fmaps : String → FilterValue → Row → Bool)
    (filters : List (String × FilterValue)) (query : List Row) : List Row :=
  let conds := (filters.filter (fun kv => kv.2.truthy)).map (fun kv => fmaps kv.1 kv.2)
  if conds.isEmpty then query else query.filter (fun r => conds.all (fun c => c r))

/-- `get_latest_form_mapper_ids`: `max(id)` grouped by
`parent_form_id`, returned as `(id, parent_form_id)` pairs, one per
distinct `parent_form_id` in the table. -/
def get_latest_form_mapper_ids (table : List Row) : List (Nat × String) :=
  ((table.map (fun r => r.parent_form_id)).dedup).map
    (fun p => (((table.filter (fun r => r.parent_form_id == p)).map (fun r => r.id)).foldl max 0, p))

/-- Flask-SQLAlchemy `paginate(page=page_number, per_page=per_page,
error_out=False)`: a missing or zero page number resolves to page 1, and
the items are the `per_page`-sized slice starting at offset
`(page - 1) * per_page`. -/
def paginate (page_number : Option Nat) (per_page : Nat) (l : List α) : List α :=
  let page := max 1 (page_number.getD 1)
  (l.drop ((page - 1) * per_page)).take per_page

/-- The `mapper_info` field bag passed to `create_from_dict`.  A field is
`some v` exactly when the corresponding key is present in the dict (a key
present with value `None` behaves like an absent key through `.get`, and
for the required keys both paths end in the same caught exception and the
same error response, so the collapse is harmless). -/
structure MapperInfo where
  form_id : Option String
  form_name : Option String
  form_type : Option String
  parent_form_id : Option String
  process_key : Option String
  process_name : Option String
  status : Option String
  comments : Option String
  created_by : Option String
  tenant : Option String
  process_tenant : Option String
  is_anonymous : Option Bool
  task_variable : Option String
  version : Option Nat
  description : Option String
deriving Repr, DecidableEq

/-- Python truthiness of the dict (`if mapper_info:`): the bag is falsy
exactly when it carries no key at all. -/
def MapperInfo.isEmpty (m : MapperInfo) : Bool :=
  m.form_id.isNone && m.form_name.isNone && m.form_type.isNone &&
  m.parent_form_id.isNone && m.process_key.isNone && m.process_name.isNone &&
  m.status.isNone && m.comments.isNone && m.created_by.isNone &&
  m.tenant.isNone && m.process_tenant.isNone && m.is_anonymous.isNone &&
  m.task_variable.isNone && m.version.isNone && m.description.isNone

/-- The keys `create_from_dict` reads with `mapper_info[...]` (a missing
one raises `KeyError`): `form_id`, `form_name`, `form_type`,
`parent_form_id` and `created_by`. -/
def MapperInfo.requiredPresent (m : MapperInfo) : Bool :=
  m.form_id.isSome && m.form_name.isSome && m.form_type.isSome &&
  m.parent_form_id.isSome && m.created_by.isSome

/-- The error payload dict returned by `create_from_dict` on failure. -/
structure ErrorResponse where
  type : String
  message : String
deriving Repr, DecidableEq

/-- The fixed `(response, HTTPStatus.BAD_REQUEST)` pair of
`create_from_dict`. -/
def badRequestResult : ErrorResponse × Nat :=
  ({ type := "Bad Request Error", message := "Invalid application request passed" }, 400)

/-- The row persisted by a successful `create_from_dict`: the supplied
fields verbatim, `new_id` and the audit `created` timestamp assigned by
`save()`, and the column defaults fired at INSERT for every attribute
the method leaves at `None` on a defaulted column — `version = 1`,
`deleted = False`, `process_key = DEFAULT_PROCESS_KEY` and
`process_name = DEFAULT_PROCESS_NAME` (SQLAlchemy drops the
`None`-valued attribute from the INSERT and the column default fires,
so these columns are stored defaulted, never NULL). -/
def persisted_row (info : MapperInfo) (new_id now : Nat) : Row :=
  { id := new_id
    form_id := info.form_id.getD ""
    form_name := info.form_name.getD ""
    form_type := info.form_type.getD ""
    parent_form_id := info.parent_form_id.getD ""
    process_key := some (info.process_key.getD DEFAULT_PROCESS_KEY)
    process_name := some (info.process_name.getD DEFAULT_PROCESS_NAME)
    status := info.status
    comments := info.comments
    tenant := info.tenant
    process_tenant := info.process_tenant
    is_anonymous := info.is_anonymous
    deleted := some false
    task_variable := info.task_variable
    version := (info.version).getD 1
    description := info.description
    created := now
    modified := none
    created_by := info.created_by.getD ""
    modified_by := none }

/-- `create_from_dict`: inside a `try`, when the bag is truthy, the five
required keys are read (`KeyError` on a missing one), the optional keys
are read with `.get`, and `save()` persists the row (`save_ok = false`
models `save()` raising, e.g. a unique-constraint violation); every
exception is caught by the `except Exception` handler, which logs it, and
control falls through to the one fixed `(response, 400)` return.
`new_id` / `now` stand for the surrogate id and audit timestamp the
database assigns on insert, and the INSERT fires the column defaults for
the attributes left at `None` on defaulted columns (`version`,
`deleted`, `process_key`, `process_name`). -/
def create_from_dict (info : MapperInfo) (save_ok : Bool) (new_id now : Nat) :
    Except (ErrorResponse × Nat) Row :=
  if info.isEmpty then
    .error badRequestResult
  else
    match info.form_id, info.form_name, info.form_type,
        info.parent_form_id, info.created_by with
    | some fid, some fnm, some fty, some pfid, some cby =>
      if save_ok then
        .ok { id := new_id
              form_id := fid
              form_name := fnm
              form_type := fty
              parent_form_id := pfid
              process_key := some (info.process_key.getD DEFAULT_PROCESS_KEY)
              process_name := some (info.process_name.getD DEFAULT_PROCESS_NAME)
              status := info.status
              comments := info.comments
              tenant := info.tenant
              process_tenant := info.process_tenant
              is_anonymous := info.is_anonymous
              deleted := some false
              task_variable := info.task_variable
              version := (info.version).getD 1
              description := info.description
              created := now
              modified := none
              created_by := cby
              modified_by := none }
      else .error badRequestResult
    | _, _, _, _, _ => .error badRequestResult

/-- The field bag passed to `update`.  An outer `some` means the key is
present in the dict; for the nullable columns the inner `Option` is the
column value being written. -/
structure UpdateInfo where
  form_id : Option String
  form_name : Option String
  form_type : Option String
  form_revision_number : Option String
  process_key : Option (Option String)
  process_name : Option (Option String)
  status : Option (Option String)
  comments : Option (Option String)
  modified_by : Option (Option String)
  is_anonymous : Option (Option Bool)
  task_variable : Option (Option String)
  process_tenant : Option (Option String)
  description : Option (Option String)
deriving Repr, DecidableEq

/-- `update`, via `BaseModel.update_from_dict` with the fixed allow-list
of keys.  Modelled from the spec: `update_from_dict` lives in
`base_model.py`, which is not among the sources; the spec says it
"patches a fixed allow-list of mutable fields (excludes identity,
version, tenant) and commits", i.e. each listed key present in the bag
overwrites that attribute and every other column is untouched.  The
listed key `form_revision_number` names no column of this model, so a
supplied value sets only a transient attribute and changes no column. -/
def Row.update (r : Row) (info : UpdateInfo) : Row :=
  { r with
    form_id := info.form_id.getD r.form_id
    form_name := info.form_name.getD r.form_name
    form_type := info.form_type.getD r.form_type
    process_key := info.process_key.getD r.process_key
    process_name := info.process_name.getD r.process_name
    status := info.status.getD r.status
    comments := info.comments.getD r.comments
    modified_by := info.modified_by.getD r.modified_by
    is_anonymous := info.is_anonymous.getD r.is_anonymous
    task_variable := info.task_variable.getD r.task_variable
    process_tenant := info.process_tenant.getD r.process_tenant
    description := info.description.getD r.description }

/-- `mark_inactive`: sets `status = INACTIVE` and `deleted = True` and
commits. -/
def mark_inactive (r : Row) : Row :=
  { r with status := some INACTIVE_STATUS, deleted := some true }

/-- `mark_unpublished`: sets `status = INACTIVE` only and commits. -/
def mark_unpublished (r : Row) : Row :=
  { r with status := some INACTIVE_STATUS }

/-- The public operations of the class that mutate an existing row
(`update`, `mark_inactive`, `mark_unpublished`); the remaining public
operations are reads, and `create_from_dict` constructs a fresh row. -/
inductive RowOp where
  | update (info : UpdateInfo)
  | markInactive
  | markUnpublished
deriving Repr

/-- Applies one public mutation to a row. -/
def RowOp.apply : RowOp → Row → Row
  | .update info, r => r.update info
  | .markInactive, r => mark_inactive r
  | .markUnpublished, r => mark_unpublished r

/-- Applies a sequence of public mutations to a row, in order. -/
def apply_ops (ops : List RowOp) (r : Row) : Row :=
  ops.foldl (fun r op => op.apply r) r

/-- The column subset projected by `with_entities` in `find_all_forms`. -/
structure FormListItem where
  id : Nat
  process_key : Option String
  form_id : String
  form_name : String
  modified : Option Nat
  status : Option String
  is_anonymous : Option Bool
  form_type : String
  created : Nat
  description : Option String
deriving Repr, DecidableEq

/-- The `with_entities` projection of `find_all_forms`. -/
def to_form_list_item (r : Row) : FormListItem :=
  { id := r.id, process_key := r.process_key, form_id := r.form_id
    form_name := r.form_name, modified := r.modified, status := r.status
    is_anonymous := r.is_anonymous, form_type := r.form_type
    created := r.created, description := r.description }

/-- The column subset projected by `with_entities` in
`find_all_active_by_formid`. -/
structure AuthorizedFormItem where
  id : Nat
  process_key : Option String
  form_id : String
  form_name : String
  modified : Option Nat
  description : Option String
deriving Repr, DecidableEq

/-- The `with_entities` projection of `find_all_active_by_formid`. -/
def to_authorized_form_item (r : Row) : AuthorizedFormItem :=
  { id := r.id, process_key := r.process_key, form_id := r.form_id
    form_name := r.form_name, modified := r.modified
    description := r.description }

/-- The column subset projected by `with_entities` in
`find_all_active`. -/
structure ActiveFormItem where
  id : Nat
  process_key : Option String
  form_id : String
  form_name : String
deriving Repr, DecidableEq

/-- The `with_entities` projection of `find_all_active`. -/
def to_active_form_item (r : Row) : ActiveFormItem :=
  { id := r.id, process_key := r.process_key, form_id := r.form_id
    form_name := r.form_name }

/-- The row-selection pipeline of `find_all_forms`, before the count,
the projection and the pagination: restrict to the latest row per
lineage intersected with the caller-supplied `form_ids`, apply the
dynamic filters, `deleted IS False`, the `form_type` membership when a
non-empty list is given, the explicit active/inactive status when
`is_active` is given, then `tenant_authorization`.  The validated
`order_by` step (`validate_sort_order_and_order_by`, an external
collaborator) only permutes the rows and is omitted. -/
def find_all_forms_query (tenant_key : Option String)
    (fmaps : String → FilterValue → Row → Bool) (form_ids : List String)
    (is_active : Option Bool) (form_type : List String)
    (filters : List (String × FilterValue)) (table : List Row) : List Row :=
  let filtered_form_query := get_latest_form_mapper_ids table
  let filtered_form_ids :=
    (filtered_form_query.filter (fun data => form_ids.contains data.2)).map (fun data => data.1)
  let query := filter_conditions fmaps filters table
  let query := query.filter
    (fun r => r.deleted == some false && filtered_form_ids.contains r.id)
  let query := if form_type.isEmpty then query
    else query.filter (fun r => form_type.contains r.form_type)
  let query := match is_active with
    | some b => query.filter
        (fun r => r.status == some (if b then ACTIVE_STATUS else INACTIVE_STATUS))
    | none => query
  tenant_authorization tenant_key query

/-- `find_all_forms`: the selection pipeline, `total_count` taken before
pagination, the `with_entities` projection, then `paginate` with
`per_page = total_count` when no limit is given. -/
def find_all_forms (tenant_key : Option String)
    (fmaps : String → FilterValue → Row → Bool)
    (page_number limit : Option Nat) (form_ids : List String)
    (is_active : Option Bool) (form_type : List String)
    (filters : List (String × FilterValue)) (table : List Row) :
    List FormListItem × Nat :=
  let query := find_all_forms_query tenant_key fmaps form_ids is_active form_type filters table
  let total_count := query.length
  let items := query.map to_form_list_item
  let limit := limit.getD total_count
  (paginate page_number limit items, total_count)

/-- The row-selection pipeline of `find_all_active_by_formid`: latest
row per lineage intersected with `form_ids`, dynamic filters, then
`access_filter` (status ACTIVE plus tenant scoping).  The validated
`order_by` step only permutes the rows and is omitted. -/
def find_all_active_by_formid_query (tenant_key : Option String)
    (fmaps : String → FilterValue → Row → Bool) (form_ids : List String)
    (filters : List (String × FilterValue)) (table : List Row) : List Row :=
  let filtered_form_query := get_latest_form_mapper_ids table
  let filtered_form_ids :=
    (filtered_form_query.filter (fun data => form_ids.contains data.2)).map (fun data => data.1)
  let query := filter_conditions fmaps filters table
  let query := query.filter (fun r => filtered_form_ids.contains r.id)
  access_filter tenant_key query

/-- `find_all_active_by_formid`: selection, count before pagination,
projection, pagination with `per_page = total_count` when no limit. -/
def find_all_active_by_formid (tenant_key : Option String)
    (fmaps : String → FilterValue → Row → Bool)
    (page_number limit : Option Nat) (form_ids : List String)
    (filters : List (String × FilterValue)) (table : List Row) :
    List AuthorizedFormItem × Nat :=
  let query := find_all_active_by_formid_query tenant_key fmaps form_ids filters table
  let total_count := query.length
  let items := query.map to_authorized_form_item
  let limit := limit.getD total_count
  (paginate page_number limit items, total_count)

/-- The row-selection pipeline of `find_all_active`: dynamic filters,
`process_key IN (...)` when a key list is given (false at a NULL
column), then `access_filter`.  The validated `order_by` step only
permutes the rows and is omitted. -/
def find_all_active_query (tenant_key : Option String)
    (fmaps : String → FilterValue → Row → Bool)
    (process_key : Option (List String))
    (filters : List (String × FilterValue)) (table : List Row) : List Row :=
  let query := filter_conditions fmaps filters table
  let query := match process_key with
    | some pks => query.filter (fun r =>
        match r.process_key with
        | some pk => pks.contains pk
        | none => false)
    | none => query
  access_filter tenant_key query

/-- `find_all_active`: selection, count before pagination, projection,
pagination with `per_page = total_count` when no limit. -/
def find_all_active (tenant_key : Option String)
    (fmaps : String → FilterValue → Row → Bool)
    (page_number limit : Option Nat) (process_key : Option (List String))
    (filters : List (String × FilterValue)) (table : List Row) :
    List ActiveFormItem × Nat :=
  let query := find_all_active_query tenant_key fmaps process_key filters table
  let total_count := query.length
  let items := query.map to_active_form_item
  let limit := limit.getD total_count
  (paginate page_number limit items, total_count)

/-- One step of selecting a maximal-`version` row: keep the candidate
unless the next row's version is strictly larger. -/
def max_version_step (acc : Option Row) (r : Row) : Option Row :=
  match acc with
  | none => some r
  | some b => if b.version < r.version then some r else acc

/-- `find_form_by_form_id`: the rows matching `form_id`, ordered by
`version` descending, `limit 1`, `first()`.  The SQL ordering on ties is
unspecified; picking the first maximal row in table order is one
realization of it. -/
def find_form_by_form_id (form_id : String) (table : List Row) : Option Row :=
  (table.filter (fun r => r.form_id == form_id)).foldl max_version_step none

/-- `find_mapper_by_form_id_and_version`: `first()` over the rows whose
`form_id`, `version` and `tenant` all match, the `tenant` column being
compared against the ambient `tenant_key` (`== None` renders as
`IS NULL`, which `Option` equality with `none` matches). -/
def find_mapper_by_form_id_and_version (tenant_key : Option String)
    (form_id : String) (version : Nat) (table : List Row) : Option Row :=
  (table.filter (fun r =>
    r.form_id == form_id && r.version == version && r.tenant == tenant_key)).head?

/-- A sample active row of tenant `T1`, used to instantiate closed
corollaries of the theorems below. -/
def sample_row : Row :=
  { id := 1, form_id := "F", form_name := "Form one", form_type := "form"
    parent_form_id := "P", process_key := none, process_name := none
    status := some ACTIVE_STATUS, comments := none, tenant := some "T1"
    process_tenant := none, is_anonymous := none, deleted := some false
    task_variable := none, version := 1, description := none, created := 0
    modified := none, created_by := "u", modified_by := none }

/-- Membership in `tenant_authorization` implies membership in the
underlying query. -/
theorem mem_of_mem_tenant_authorization {tk : Option String} {q : List Row}
    {r : Row} (h : r ∈ tenant_authorization tk q) : r ∈ q := by
  cases tk with
  | none => exact h
  | some t => exact (List.mem_filter.mp h).1

/-- With a non-null ambient tenant, membership in `tenant_authorization`
forces the row's tenant column to equal the tenant key. -/
theorem tenant_of_mem_tenant_authorization {t : String} {q : List Row}
    {r : Row} (h : r ∈ tenant_authorization (some t) q) : r.tenant = some t := by
  simpa using (List.mem_filter.mp h).2

/-- Membership in `access_filter` implies membership in the underlying
query, an ACTIVE status, and (with a non-null ambient tenant) a tenant
column equal to the tenant key. -/
theorem mem_access_filter_spec {tk : Option String} {q : List Row} {r : Row}
    (h : r ∈ access_filter tk q) :
    r ∈ q ∧ r.status = some ACTIVE_STATUS ∧ ∀ t, tk = some t → r.tenant = some t := by
  cases tk with
  | none =>
    have h' := List.mem_filter.mp h
    exact ⟨h'.1, by simpa using h'.2, by simp⟩
  | some t =>
    have h' := List.mem_filter.mp h
    have h'' := List.mem_filter.mp h'.1
    refine ⟨h''.1, by simpa using h''.2, ?_⟩
    intro t' ht'
    cases ht'
    simpa using h'.2

/-- C2: tenant isolation.  Under a caller whose ambient `tenant_key` is
the non-null value `t1`, neither `access_filter` nor
`tenant_authorization` ever lets through a row whose `tenant` column is
a different non-null value `t2`: both add the predicate
`tenant == tenant_key`. -/
theorem tenant_isolation (t1 t2 : String) (rows : List Row) (r : Row)
    (hne : t2 ≠ t1) :
    (r ∈ access_filter (some t1) rows → r.tenant ≠ some t2) ∧
    (r ∈ tenant_authorization (some t1) rows → r.tenant ≠ some t2) := by
  constructor
  · intro hmem
    have h := ((mem_access_filter_spec hmem).2.2 t1 rfl)
    rw [h]
    exact fun hc => hne (Option.some.inj hc).symm
  · intro hmem
    have h := tenant_of_mem_tenant_authorization hmem
    rw [h]
    exact fun hc => hne (Option.some.inj hc).symm

/-- C2 witness: a `T2` row in the table is reflected into neither helper
under tenant `T1`. -/
theorem tenant_isolation_witness :
    ("T2" : String) ≠ "T1" ∧
    ((sample_row ∈ access_filter (some "T1") [sample_row] →
        sample_row.tenant ≠ some "T2") ∧
      (sample_row ∈ tenant_authorization (some "T1") [sample_row] →
        sample_row.tenant ≠ some "T2")) :=
  ⟨by decide, tenant_isolation "T1" "T2" [sample_row] sample_row (by decide)⟩

/-- C3: under a caller whose ambient `tenant_key` is non-null, a row
with `tenant = null` (globally visible in the data model's words) is
excluded by both `access_filter` and `tenant_authorization`, because
both compare the tenant column for equality with the tenant key. -/
theorem null_tenant_excluded (k : String) (rows : List Row) (r : Row)
    (h : r.tenant = none) :
    r ∉ access_filter (some k) rows ∧ r ∉ tenant_authorization (some k) rows := by
  constructor
  · intro hmem
    have hc := (mem_access_filter_spec hmem).2.2 k rfl
    rw [h] at hc
    exact Option.noConfusion hc
  · intro hmem
    have hc := tenant_of_mem_tenant_authorization hmem
    rw [h] at hc
    exact Option.noConfusion hc

/-- C3 witness: a null-tenant row is dropped by both helpers under
tenant `X`. -/
theorem null_tenant_excluded_witness :
    ({ sample_row with tenant := none } : Row).tenant = none ∧
    ({ sample_row with tenant := none } ∉
        access_filter (some "X") [{ sample_row with tenant := none }] ∧
      { sample_row with tenant := none } ∉
        tenant_authorization (some "X") [{ sample_row with tenant := none }]) :=
  ⟨rfl, null_tenant_excluded "X" [{ sample_row with tenant := none }]
    { sample_row with tenant := none } rfl⟩

/-- C7: `update` patches only its fixed allow-list of fields; the `id`,
`version`, `tenant`, `parent_form_id` and `deleted` columns — and the
creation audit columns — are unchanged by it. -/
theorem update_frame (r : Row) (info : UpdateInfo) :
    (r.update info).id = r.id ∧
    (r.update info).version = r.version ∧
    (r.update info).tenant = r.tenant ∧
    (r.update info).parent_form_id = r.parent_form_id ∧
    (r.update info).deleted = r.deleted ∧
    (r.update info).created = r.created ∧
    (r.update info).created_by = r.created_by :=
  ⟨rfl, rfl, rfl, rfl, rfl, rfl, rfl⟩

/-- C8: `find_mapper_by_form_id_and_version` yields a row only when its
`form_id`, `version` and `tenant` all match, the tenant being compared
against the caller's ambient `tenant_key`; a mismatch on any of the
three gives no result (an `Option`, never an error). -/
theorem find_mapper_by_form_id_and_version_scoped (tenant_key : Option String)
    (f : String) (v : Nat) (table : List Row) (r : Row)
    (h : find_mapper_by_form_id_and_version tenant_key f v table = some r) :
    r.form_id = f ∧ r.version = v ∧ r.tenant = tenant_key := by
  have hmem : r ∈ table.filter (fun r =>
      r.form_id == f && r.version == v && r.tenant == tenant_key) :=
    List.mem_of_mem_head? (by rw [find_mapper_by_form_id_and_version] at h; simp [h])
  have hp := (List.mem_filter.mp hmem).2
  simp only [Bool.and_eq_true, beq_iff_eq] at hp
  exact ⟨hp.1.1, hp.1.2, hp.2⟩

/-- C8 witness: the lookup under tenant `T1` returns the matching `T1`
row, whose three key columns therefore all match; and under tenant `X`
the same table yields no result. -/
theorem find_mapper_by_form_id_and_version_scoped_witness :
    find_mapper_by_form_id_and_version (some "T1") "F" 1 [sample_row] =
      some sample_row ∧
    (sample_row.form_id = "F" ∧ sample_row.version = 1 ∧
      sample_row.tenant = some "T1") ∧
    find_mapper_by_form_id_and_version (some "X") "F" 1 [sample_row] = none :=
  ⟨by decide,
    find_mapper_by_form_id_and_version_scoped (some "T1") "F" 1 [sample_row]
      sample_row (by decide),
    by decide⟩

/-- C10: in `filter_conditions`, entries with a falsy value contribute
no predicate — erasing them from the filter bag leaves the result
unchanged, so a falsy value is indistinguishable from an absent filter —
and when no entry is truthy the base query is returned with no filter
applied at all. -/
theorem filter_conditions_falsy (fmaps : String → FilterValue → Row → Bool)
    (table : List Row) (filters : List (String × FilterValue)) :
    filter_conditions fmaps filters table =
      filter_conditions fmaps (filters.filter (fun kv => kv.2.truthy)) table ∧
    ((∀ kv ∈ filters, kv.2.truthy = false) →
      filter_conditions fmaps filters table = table) := by
  constructor
  · simp only [filter_conditions, List.filter_filter, Bool.and_self]
  · intro hall
    have hnil : filters.filter (fun kv => kv.2.truthy) = [] := by
      rw [List.filter_eq_nil_iff]
      intro kv hkv
      simp [hall kv hkv]
    simp [filter_conditions, hnil]

/-- C10 witness: a bag of two falsy entries (`0` and the empty string)
behaves like its truthy sub-bag (the empty bag) and leaves the base
query untouched. -/
theorem filter_conditions_falsy_witness :
    filter_conditions (fun _ _ _ => false)
        [("formName", FilterValue.str ""), ("id", FilterValue.nat 0)] [sample_row] =
      filter_conditions (fun _ _ _ => false)
        ([("formName", FilterValue.str ""), ("id", FilterValue.nat 0)].filter
          (fun kv => kv.2.truthy)) [sample_row] ∧
    ((∀ kv ∈ [("formName", FilterValue.str ""), ("id", FilterValue.nat 0)],
        kv.2.truthy = false) →
      filter_conditions (fun _ _ _ => false)
        [("formName", FilterValue.str ""), ("id", FilterValue.nat 0)] [sample_row] =
        [sample_row]) ∧
    filter_conditions (fun _ _ _ => false)
      [("formName", FilterValue.str ""), ("id", FilterValue.nat 0)] [sample_row] =
      [sample_row] :=
  ⟨(filter_conditions_falsy (fun _ _ _ => false) [sample_row]
      [("formName", FilterValue.str ""), ("id", FilterValue.nat 0)]).1,
    (filter_conditions_falsy (fun _ _ _ => false) [sample_row]
      [("formName", FilterValue.str ""), ("id", FilterValue.nat 0)]).2,
    (filter_conditions_falsy (fun _ _ _ => false) [sample_row]
      [("formName", FilterValue.str ""), ("id", FilterValue.nat 0)]).2
      (by decide)⟩

/-- C1: `create_from_dict` either succeeds and returns the persisted
mapper row, or — on any failure during construction or persistence
(falsy bag, missing required key, `save()` raising) — logs and returns
the one fixed `({type: "Bad Request Error", message: "Invalid
application request passed"}, 400)` pair, never propagating the
underlying exception and never distinguishing the root cause. -/
theorem create_from_dict_error_coercion (info : MapperInfo) (save_ok : Bool)
    (new_id now : Nat) :
    ((info.isEmpty = false ∧ info.requiredPresent = true ∧ save_ok = true) →
      create_from_dict info save_ok new_id now =
        .ok (persisted_row info new_id now)) ∧
    (¬ (info.isEmpty = false ∧ info.requiredPresent = true ∧ save_ok = true) →
      create_from_dict info save_ok new_id now = .error badRequestResult) := by
  cases hemp : info.isEmpty <;>
    cases hfid : info.form_id <;>
    cases hfnm : info.form_name <;>
    cases hfty : info.form_type <;>
    cases hpf : info.parent_form_id <;>
    cases hcb : info.created_by <;>
    cases save_ok <;>
      simp_all [create_from_dict, persisted_row, MapperInfo.requiredPresent]

/-- C1 witness: a complete bag persists and returns its row; the same
bag with `save()` failing, and a bag missing `created_by`, both return
exactly the fixed bad-request pair. -/
theorem create_from_dict_error_coercion_witness :
    create_from_dict
        { form_id := some "F", form_name := some "Form one"
          form_type := some "form", parent_form_id := some "P"
          process_key := none, process_name := none, status := none
          comments := none, created_by := some "u", tenant := none
          process_tenant := none, is_anonymous := none, task_variable := none
          version := none, description := none } true 7 3 =
      .ok (persisted_row
        { form_id := some "F", form_name := some "Form one"
          form_type := some "form", parent_form_id := some "P"
          process_key := none, process_name := none, status := none
          comments := none, created_by := some "u", tenant := none
          process_tenant := none, is_anonymous := none, task_variable := none
          version := none, description := none } 7 3) ∧
    create_from_dict
        { form_id := some "F", form_name := some "Form one"
          form_type := some "form", parent_form_id := some "P"
          process_key := none, process_name := none, status := none
          comments := none, created_by := some "u", tenant := none
          process_tenant := none, is_anonymous := none, task_variable := none
          version := none, description := none } false 7 3 =
      .error badRequestResult ∧
    create_from_dict
        { form_id := some "F", form_name := some "Form one"
          form_type := some "form", parent_form_id := some "P"
          process_key := none, process_name := none, status := none
          comments := none, created_by := none, tenant := none
          process_tenant := none, is_anonymous := none, task_variable := none
          version := none, description := none } true 7 3 =
      .error badRequestResult :=
  ⟨(create_from_dict_error_coercion _ true 7 3).1 ⟨rfl, rfl, rfl⟩,
    (create_from_dict_error_coercion _ false 7 3).2 (by simp),
    (create_from_dict_error_coercion _ true 7 3).2 (by simp [MapperInfo.requiredPresent])⟩

/-- `paginate` with no page number and a page size equal to the list's
length returns the whole list as the one page. -/
theorem paginate_none_all (l : List α) (n : Nat) (h : n = l.length) :
    paginate none n l = l := by
  subst h
  simp [paginate]

/-- `paginate` returns at most `per_page` items. -/
theorem paginate_length_le (pn : Option Nat) (per_page : Nat) (l : List α) :
    (paginate pn per_page l).length ≤ per_page := by
  simp [paginate]

/-- C4: in each listing call (`find_all_forms`,
`find_all_active_by_formid`, `find_all_active`), the returned
`total_count` is the number of matching rows before pagination; with no
limit the effective page size becomes that total, so the (default) first
page carries every matching row; and with `limit = L` at most `L` items
are returned. -/
theorem listings_pagination (tk : Option String)
    (fm : String → FilterValue → Row → Bool) (pn lim : Option Nat)
    (fids : List String) (ia : Option Bool) (ft : List String)
    (pk : Option (List String)) (fl : List (String × FilterValue))
    (table : List Row) :
    ((find_all_forms tk fm pn lim fids ia ft fl table).2 =
        (find_all_forms_query tk fm fids ia ft fl table).length ∧
      (lim = none → pn = none →
        (find_all_forms tk fm pn lim fids ia ft fl table).1 =
          (find_all_forms_query tk fm fids ia ft fl table).map to_form_list_item) ∧
      (∀ L, lim = some L →
        (find_all_forms tk fm pn lim fids ia ft fl table).1.length ≤ L)) ∧
    ((find_all_active_by_formid tk fm pn lim fids fl table).2 =
        (find_all_active_by_formid_query tk fm fids fl table).length ∧
      (lim = none → pn = none →
        (find_all_active_by_formid tk fm pn lim fids fl table).1 =
          (find_all_active_by_formid_query tk fm fids fl table).map to_authorized_form_item) ∧
      (∀ L, lim = some L →
        (find_all_active_by_formid tk fm pn lim fids fl table).1.length ≤ L)) ∧
    ((find_all_active tk fm pn lim pk fl table).2 =
        (find_all_active_query tk fm pk fl table).length ∧
      (lim = none → pn = none →
        (find_all_active tk fm pn lim pk fl table).1 =
          (find_all_active_query tk fm pk fl table).map to_active_form_item) ∧
      (∀ L, lim = some L →
        (find_all_active tk fm pn lim pk fl table).1.length ≤ L)) := by
  refine ⟨⟨rfl, ?_, ?_⟩, ⟨rfl, ?_, ?_⟩, ⟨rfl, ?_, ?_⟩⟩ <;>
    first
    | (intro hl hp
       subst hl
       subst hp
       exact paginate_none_all _ _ (List.length_map _ _).symm)
    | (intro L hL
       subst hL
       exact paginate_length_le _ _ _)

/-- C4 witness: on a one-row table with a caller authorized for lineage
`P`, each listing with no limit returns all its matching rows in one
page, and each listing with `limit = 1` returns at most one item; the
returned totals are the unpaged match counts. -/
theorem listings_pagination_witness :
    (find_all_forms none (fun _ _ _ => true) none none ["P"] none [] []
        [sample_row]).1 =
      (find_all_forms_query none (fun _ _ _ => true) ["P"] none [] []
        [sample_row]).map to_form_list_item ∧
    (find_all_forms none (fun _ _ _ => true) none (some 1) ["P"] none [] []
        [sample_row]).1.length ≤ 1 ∧
    (find_all_active_by_formid none (fun _ _ _ => true) none none ["P"] []
        [sample_row]).1 =
      (find_all_active_by_formid_query none (fun _ _ _ => true) ["P"] []
        [sample_row]).map to_authorized_form_item ∧
    (find_all_active_by_formid none (fun _ _ _ => true) none (some 1) ["P"] []
        [sample_row]).1.length ≤ 1 ∧
    (find_all_active none (fun _ _ _ => true) none none none []
        [sample_row]).1 =
      (find_all_active_query none (fun _ _ _ => true) none []
        [sample_row]).map to_active_form_item ∧
    (find_all_active none (fun _ _ _ => true) none (some 1) none []
        [sample_row]).1.length ≤ 1 :=
  ⟨(listings_pagination none (fun _ _ _ => true) none none ["P"] none [] none []
      [sample_row]).1.2.1 rfl rfl,
    (listings_pagination none (fun _ _ _ => true) none (some 1) ["P"] none [] none []
      [sample_row]).1.2.2 1 rfl,
    (listings_pagination none (fun _ _ _ => true) none none ["P"] none [] none []
      [sample_row]).2.1.2.1 rfl rfl,
    (listings_pagination none (fun _ _ _ => true) none (some 1) ["P"] none [] none []
      [sample_row]).2.1.2.2 1 rfl,
    (listings_pagination none (fun _ _ _ => true) none none ["P"] none [] none []
      [sample_row]).2.2.2.1 rfl rfl,
    (listings_pagination none (fun _ _ _ => true) none (some 1) ["P"] none [] none []
      [sample_row]).2.2.2.2 1 rfl⟩

/-- The start value bounds a left fold of `max`. -/
theorem le_foldl_max (l : List Nat) (a : Nat) : a ≤ l.foldl max a := by
  induction l generalizing a with
  | nil => exact le_refl a
  | cons x xs ih => exact le_trans (le_max_left a x) (ih (max a x))

/-- Every member bounds a left fold of `max` from below. -/
theorem foldl_max_le (l : List Nat) : ∀ a x : Nat, x ∈ l → x ≤ l.foldl max a := by
  induction l with
  | nil =>
    intro a x hx
    cases hx
  | cons y ys ih =>
    intro a x hx
    simp only [List.foldl_cons]
    rcases List.mem_cons.mp hx with h | h
    · subst h
      exact le_trans (le_max_right a x) (le_foldl_max ys (max a x))
    · exact ih (max a y) x h

/-- A left fold of `max` is the start value or a member. -/
theorem foldl_max_mem (l : List Nat) : ∀ a : Nat, l.foldl max a = a ∨ l.foldl max a ∈ l := by
  induction l with
  | nil =>
    intro a
    exact Or.inl rfl
  | cons y ys ih =>
    intro a
    simp only [List.foldl_cons]
    rcases ih (max a y) with h | h
    · rcases max_choice a y with hm | hm
      · exact Or.inl (by rw [h, hm])
      · refine Or.inr ?_
        rw [h, hm]
        exact List.mem_cons_self y ys
    · exact Or.inr (List.mem_cons_of_mem y h)

/-- C5: `get_latest_form_mapper_ids` returns, per distinct
`parent_form_id` present in the table, exactly one `(id,
parent_form_id)` entry; each entry's id is attained by a row of that
group and bounds every id in the group, and every entry's group is
present in the table (no other entries). -/
theorem get_latest_form_mapper_ids_spec (table : List Row) :
    (∀ e ∈ get_latest_form_mapper_ids table,
        (∃ r ∈ table, r.parent_form_id = e.2 ∧ r.id = e.1) ∧
        (∀ r ∈ table, r.parent_form_id = e.2 → r.id ≤ e.1)) ∧
    (∀ p : String, (∃ r ∈ table, r.parent_form_id = p) →
        (get_latest_form_mapper_ids table).countP (fun e => e.2 == p) = 1) := by
  constructor
  · intro e he
    obtain ⟨p, hp, hfe⟩ := List.mem_map.mp he
    subst hfe
    constructor
    · have hp' : p ∈ table.map (fun r => r.parent_form_id) := List.mem_dedup.mp hp
      obtain ⟨r0, hr0, hr0p⟩ := List.mem_map.mp hp'
      have hr0ids : r0.id ∈ (table.filter (fun r => r.parent_form_id == p)).map
          (fun r => r.id) :=
        List.mem_map.mpr ⟨r0, List.mem_filter.mpr ⟨hr0, by simp [hr0p]⟩, rfl⟩
      rcases foldl_max_mem ((table.filter (fun r => r.parent_form_id == p)).map
          (fun r => r.id)) 0 with h0 | hmem
      · have hle := foldl_max_le _ 0 r0.id hr0ids
        rw [h0] at hle
        exact ⟨r0, hr0, hr0p, by omega⟩
      · obtain ⟨r1, hr1, hr1id⟩ := List.mem_map.mp hmem
        have h1 := List.mem_filter.mp hr1
        exact ⟨r1, h1.1, by simpa using h1.2, hr1id⟩
    · intro r hr hrp
      exact foldl_max_le _ 0 r.id
        (List.mem_map.mpr ⟨r, List.mem_filter.mpr ⟨hr, by simp [hrp]⟩, rfl⟩)
  · rintro p ⟨r, hr, hrp⟩
    unfold get_latest_form_mapper_ids
    rw [List.countP_map]
    have hpmem : p ∈ (table.map (fun r => r.parent_form_id)).dedup :=
      List.mem_dedup.mpr (List.mem_map.mpr ⟨r, hr, hrp⟩)
    have hcount := List.count_eq_one_of_mem
      (List.nodup_dedup (table.map fun r => r.parent_form_id)) hpmem
    simpa [List.count, Function.comp] using hcount

/-- C5 witness: with two versions of lineage `P` (ids 1 and 5) and one
row of lineage `Q` (id 3), the aggregation yields one entry for `P`
attaining the maximal id 5 and bounding both ids. -/
theorem get_latest_form_mapper_ids_spec_witness :
    ((5, "P") ∈ get_latest_form_mapper_ids
        [sample_row, { sample_row with id := 5 },
          { sample_row with id := 3, parent_form_id := "Q" }] ∧
      (∃ r ∈ [sample_row, { sample_row with id := 5 },
          { sample_row with id := 3, parent_form_id := "Q" }],
        r.parent_form_id = "P" ∧ r.id = 5) ∧
      (∀ r ∈ [sample_row, { sample_row with id := 5 },
          { sample_row with id := 3, parent_form_id := "Q" }],
        r.parent_form_id = "P" → r.id ≤ 5)) ∧
    (get_latest_form_mapper_ids
        [sample_row, { sample_row with id := 5 },
          { sample_row with id := 3, parent_form_id := "Q" }]).countP
      (fun e => e.2 == "P") = 1 := by
  refine ⟨⟨by decide, ?_⟩, ?_⟩
  · exact (get_latest_form_mapper_ids_spec
      [sample_row, { sample_row with id := 5 },
        { sample_row with id := 3, parent_form_id := "Q" }]).1
      (5, "P") (by decide)
  · exact (get_latest_form_mapper_ids_spec
      [sample_row, { sample_row with id := 5 },
        { sample_row with id := 3, parent_form_id := "Q" }]).2
      "P" ⟨sample_row, by decide, by decide⟩

/-- No public mutation turns `deleted = True` back off: `update` leaves
the flag alone, `mark_unpublished` touches only `status`, and
`mark_inactive` sets it to `True`. -/
theorem apply_ops_deleted (ops : List RowOp) :
    ∀ r : Row, r.deleted = some true → (apply_ops ops r).deleted = some true := by
  induction ops with
  | nil =>
    intro r h
    exact h
  | cons op ops ih =>
    intro r h
    simp only [apply_ops, List.foldl_cons]
    refine ih (op.apply r) ?_
    cases op with
    | update info => exact h
    | markInactive => rfl
    | markUnpublished => exact h

/-- Every row selected by the `find_all_forms` pipeline survived its
`deleted IS False` / latest-id membership filter. -/
theorem find_all_forms_query_subset (tk : Option String)
    (fm : String → FilterValue → Row → Bool) (fids : List String)
    (ia : Option Bool) (ft : List String) (fl : List (String × FilterValue))
    (table : List Row) :
    find_all_forms_query tk fm fids ia ft fl table ⊆
      (filter_conditions fm fl table).filter
        (fun r => r.deleted == some false &&
          (((get_latest_form_mapper_ids table).filter
              (fun data => fids.contains data.2)).map
            (fun data => data.1)).contains r.id) := by
  intro r h
  simp only [find_all_forms_query] at h
  have h1 := mem_of_mem_tenant_authorization h
  rcases ia with _ | b
  · by_cases hft : ft.isEmpty
    · simpa [hft] using h1
    · rw [if_neg hft] at h1
      exact (List.mem_filter.mp h1).1
  · have h2 := (List.mem_filter.mp h1).1
    by_cases hft : ft.isEmpty
    · simpa [hft] using h2
    · rw [if_neg hft] at h2
      exact (List.mem_filter.mp h2).1

/-- A row selected by the `find_all_forms` pipeline has
`deleted = False`. -/
theorem find_all_forms_query_deleted {tk : Option String}
    {fm : String → FilterValue → Row → Bool} {fids : List String}
    {ia : Option Bool} {ft : List String} {fl : List (String × FilterValue)}
    {table : List Row} {r : Row}
    (h : r ∈ find_all_forms_query tk fm fids ia ft fl table) :
    r.deleted = some false := by
  have h1 := (List.mem_filter.mp
    (find_all_forms_query_subset tk fm fids ia ft fl table h)).2
  simp only [Bool.and_eq_true, beq_iff_eq] at h1
  exact h1.1

/-- C6: `mark_inactive` leaves the row with `status = INACTIVE` and
`deleted = True`; no subsequent sequence of public mutations ever resets
`deleted`; `find_all_forms` selects only rows with `deleted = False`;
hence the marked row, however further mutated, never appears in a
`find_all_forms` selection. -/
theorem mark_inactive_permanent (r : Row) :
    (mark_inactive r).status = some INACTIVE_STATUS ∧
    (mark_inactive r).deleted = some true ∧
    (∀ ops : List RowOp, (apply_ops ops (mark_inactive r)).deleted = some true) ∧
    (∀ (tk : Option String) (fm : String → FilterValue → Row → Bool)
        (fids : List String) (ia : Option Bool) (ft : List String)
        (fl : List (String × FilterValue)) (table : List Row) (row : Row),
      row ∈ find_all_forms_query tk fm fids ia ft fl table →
        row.deleted = some false) ∧
    (∀ (ops : List RowOp) (tk : Option String)
        (fm : String → FilterValue → Row → Bool) (fids : List String)
        (ia : Option Bool) (ft : List String)
        (fl : List (String × FilterValue)) (table : List Row),
      apply_ops ops (mark_inactive r) ∉
        find_all_forms_query tk fm fids ia ft fl table) := by
  refine ⟨rfl, rfl, ?_, ?_, ?_⟩
  · intro ops
    exact apply_ops_deleted ops _ rfl
  · intro tk fm fids ia ft fl table row hmem
    exact find_all_forms_query_deleted hmem
  · intro ops tk fm fids ia ft fl table hmem
    have hd := find_all_forms_query_deleted hmem
    have ht := apply_ops_deleted ops (mark_inactive r) rfl
    rw [ht] at hd
    exact Bool.noConfusion (Option.some.inj hd)

/-- C6 witness: the marked sample row has the inactive/deleted flags, a
further unpublish keeps `deleted = True`, the unmarked row passes the
pipeline's deleted filter, and the marked row is absent from a
`find_all_forms` selection over a table containing it. -/
theorem mark_inactive_permanent_witness :
    (mark_inactive sample_row).status = some INACTIVE_STATUS ∧
    (mark_inactive sample_row).deleted = some true ∧
    (apply_ops [RowOp.markUnpublished] (mark_inactive sample_row)).deleted =
      some true ∧
    sample_row ∈ find_all_forms_query none (fun _ _ _ => true) ["P"] none [] []
      [sample_row] ∧
    sample_row.deleted = some false ∧
    apply_ops [] (mark_inactive sample_row) ∉
      find_all_forms_query none (fun _ _ _ => true) ["P"] none [] []
        [mark_inactive sample_row] := by
  obtain ⟨h1, h2, h3, h4, h5⟩ := mark_inactive_permanent sample_row
  exact ⟨h1, h2, h3 [RowOp.markUnpublished], by decide,
    h4 none (fun _ _ _ => true) ["P"] none [] [] [sample_row] sample_row
      (by decide),
    h5 [] none (fun _ _ _ => true) ["P"] none [] [] [mark_inactive sample_row]⟩

/-- A fold of `max_version_step` starting from a candidate stays
defined. -/
theorem foldl_max_version_some (l : List Row) :
    ∀ a : Row, ∃ b, l.foldl max_version_step (some a) = some b := by
  induction l with
  | nil =>
    intro a
    exact ⟨a, rfl⟩
  | cons y ys ih =>
    intro a
    simp only [List.foldl_cons]
    by_cases hv : a.version < y.version
    · simpa [max_version_step, hv] using ih y
    · simpa [max_version_step, hv] using ih a

/-- A fold of `max_version_step` yields the start candidate or a member,
whose version bounds every member's version and the start candidate's
version. -/
theorem foldl_max_version_spec (l : List Row) :
    ∀ (acc : Option Row) (b : Row), l.foldl max_version_step acc = some b →
      (acc = some b ∨ b ∈ l) ∧ (∀ q ∈ l, q.version ≤ b.version) ∧
      (∀ a, acc = some a → a.version ≤ b.version) := by
  induction l with
  | nil =>
    intro acc b hb
    refine ⟨Or.inl hb, by simp, ?_⟩
    intro a ha
    rw [ha] at hb
    cases hb
    exact le_refl _
  | cons y ys ih =>
    intro acc b hb
    simp only [List.foldl_cons] at hb
    obtain ⟨hmem, hall, hacc⟩ := ih (max_version_step acc y) b hb
    have hstep : (max_version_step acc y = some y ∧
          ∀ a, acc = some a → a.version ≤ y.version) ∨
        (max_version_step acc y = acc ∧
          ∃ a, acc = some a ∧ y.version ≤ a.version) := by
      cases acc with
      | none =>
        refine Or.inl ⟨rfl, ?_⟩
        intro a ha
        cases ha
      | some a =>
        by_cases hv : a.version < y.version
        · refine Or.inl ⟨by simp [max_version_step, hv], ?_⟩
          intro a' ha'
          cases ha'
          exact le_of_lt hv
        · exact Or.inr ⟨by simp [max_version_step, hv], a, rfl, le_of_not_lt hv⟩
    rcases hstep with ⟨hs, hy⟩ | ⟨hs, a, ha, hya⟩
    · rw [hs] at hmem hacc
      refine ⟨?_, ?_, ?_⟩
      · rcases hmem with h | h
        · refine Or.inr ?_
          rw [← Option.some.inj h]
          exact List.mem_cons_self y ys
        · exact Or.inr (List.mem_cons_of_mem y h)
      · intro q hq
        rcases List.mem_cons.mp hq with h | h
        · subst h
          exact hacc q rfl
        · exact hall q h
      · intro a' ha'
        exact le_trans (hy a' ha') (hacc y rfl)
    · rw [hs] at hmem hacc
      refine ⟨?_, ?_, ?_⟩
      · rcases hmem with h | h
        · exact Or.inl h
        · exact Or.inr (List.mem_cons_of_mem y h)
      · intro q hq
        rcases List.mem_cons.mp hq with h | h
        · subst h
          exact le_trans hya (hacc a ha)
        · exact hall q h
      · exact hacc

/-- C9: whenever at least one row carries the given `form_id`,
`find_form_by_form_id` returns a stored row with that `form_id` whose
`version` is maximal among *all* rows with that `form_id` — regardless
of their tenant, status or deleted flag. -/
theorem find_form_by_form_id_max_version (f : String) (table : List Row)
    (h : ∃ r ∈ table, r.form_id = f) :
    ∃ r, find_form_by_form_id f table = some r ∧ r ∈ table ∧ r.form_id = f ∧
      ∀ q ∈ table, q.form_id = f → q.version ≤ r.version := by
  obtain ⟨r0, hr0, hr0f⟩ := h
  have hr0fil : r0 ∈ table.filter (fun r => r.form_id == f) :=
    List.mem_filter.mpr ⟨hr0, by simp [hr0f]⟩
  rcases hfil : table.filter (fun r => r.form_id == f) with _ | ⟨y, ys⟩
  · rw [hfil] at hr0fil
    cases hr0fil
  · have hsome : ∃ b, (y :: ys).foldl max_version_step none = some b := by
      simp only [List.foldl_cons]
      exact foldl_max_version_some ys y
    obtain ⟨b, hb⟩ := hsome
    have hspec := foldl_max_version_spec (y :: ys) none b hb
    have hbmem : b ∈ y :: ys := by
      rcases hspec.1 with h | h
      · cases h
      · exact h
    rw [← hfil] at hbmem
    have hbf := List.mem_filter.mp hbmem
    refine ⟨b, ?_, hbf.1, by simpa using hbf.2, ?_⟩
    · unfold find_form_by_form_id
      rw [hfil]
      exact hb
    · intro q hq hqf
      have hqfil : q ∈ y :: ys := by
        rw [← hfil]
        exact List.mem_filter.mpr ⟨hq, by simp [hqf]⟩
      exact hspec.2.1 q hqfil

/-- C9 witness: with versions 1 and 2 of form `F` stored (the version-1
row having the larger surrogate id), the lookup returns the version-2
row, whose version bounds both stored versions. -/
theorem find_form_by_form_id_max_version_witness :
    (∃ r ∈ [{ sample_row with id := 9 }, { sample_row with id := 2, version := 2 }],
      r.form_id = "F") ∧
    (∃ r, find_form_by_form_id "F"
        [{ sample_row with id := 9 }, { sample_row with id := 2, version := 2 }] =
          some r ∧
      r ∈ [{ sample_row with id := 9 }, { sample_row with id := 2, version := 2 }] ∧
      r.form_id = "F" ∧
      ∀ q ∈ [{ sample_row with id := 9 }, { sample_row with id := 2, version := 2 }],
        q.form_id = "F" → q.version ≤ r.version) ∧
    find_form_by_form_id "F"
        [{ sample_row with id := 9 }, { sample_row with id := 2, version := 2 }] =
      some { sample_row with id := 2, version := 2 } :=
  ⟨⟨{ sample_row with id := 9 }, by decide, by decide⟩,
    find_form_by_form_id_max_version "F"
      [{ sample_row with id := 9 }, { sample_row with id := 2, version := 2 }]
      ⟨{ sample_row with id := 9 }, by decide, by decide⟩,
    by decide⟩

end FormsFlow
